import Mathlib

/-!
Shallow embedding of the vehicle-inspection backend core
(`src/backend/src/validation.ts`, `src/backend/src/database.ts`, and the
check service in `src/unnamed/part_004`, i.e. `src/services/checkService.ts`).

Modelling conventions:
* Untrusted JSON request payloads are modelled by the inductive `JsValue`;
  JavaScript property access (which throws a `TypeError` on `null` and
  `undefined`) is modelled by `JsValue.getField` returning `Except`, and a
  thrown exception is the `Except.error` case.
* JavaScript truthiness (`!x`) is modelled by `JsValue.truthy`.
* TypeScript string-literal unions (`CheckItemKey`, `CheckItemStatus`) are
  runtime strings, so they are modelled as `String`; the closed value sets are
  the lists `VALID_KEYS` and `VALID_STATUSES`, exactly as in the source.
* `createdAt` is stored by the source as a `Date.toISOString()` string and
  compared via `new Date(s).getTime()`; since `toISOString` output is order
  isomorphic to the epoch milliseconds it encodes, `createdAt` is modelled as
  the epoch-millisecond value (a `Nat`).
* An optional object field that the source omits from the built record (the
  conditional spread for `note`) is modelled as `Option`, `none` meaning the
  key is absent from the object (not present with value `null` or `""`).
* The file-system results consumed by `readChecks` / `writeChecks` are passed
  in explicitly as `Except` values; `Except.error` is a thrown I/O exception.
* `Array.prototype.sort` with comparator `(a, b) => tb - ta` is a stable sort
  by `createdAt` descending; it is modelled by `List.mergeSort`, which is
  stable, with the order `fun a b => b.createdAt ≤ a.createdAt`.
-/

namespace VehicleInspection

/-- A JavaScript/JSON runtime value, as received by the untyped validator. -/
inductive JsValue where
  | null : JsValue
  | undefined : JsValue
  | bool (b : Bool) : JsValue
  | num (n : Int) : JsValue
  | str (s : String) : JsValue
  | arr (elems : List JsValue) : JsValue
  | obj (fields : List (String × JsValue)) : JsValue

/-- Object property lookup: a missing property reads as `undefined`. -/
def lookupField : List (String × JsValue) → String → JsValue
  | [], _ => JsValue.undefined
  | (k, v) :: rest, f => if k = f then v else lookupField rest f

/-- JavaScript property access `v.f`: throws a `TypeError` on `null` and
`undefined`, reads the property on an object, and yields `undefined` on every
other primitive or array (for the property names this backend reads). -/
def JsValue.getField : JsValue → String → Except String JsValue
  | JsValue.null, f => Except.error ("TypeError: cannot read " ++ f ++ " of null")
  | JsValue.undefined, f =>
      Except.error ("TypeError: cannot read " ++ f ++ " of undefined")
  | JsValue.obj fields, f => Except.ok (lookupField fields f)
  | _, _ => Except.ok JsValue.undefined

/-- JavaScript truthiness: `null`, `undefined`, `false`, `0` and `""` are
falsy; every other value (including any array or object) is truthy. -/
def JsValue.truthy : JsValue → Bool
  | JsValue.null => false
  | JsValue.undefined => false
  | JsValue.bool b => b
  | JsValue.num n => n != 0
  | JsValue.str s => s != ""
  | JsValue.arr _ => true
  | JsValue.obj _ => true

/-- The strict test `v === undefined || v === null`. -/
def JsValue.isUndefinedOrNull : JsValue → Bool
  | JsValue.undefined => true
  | JsValue.null => true
  | _ => false

/-- `typeof v === "string"`. -/
def JsValue.isString : JsValue → Bool
  | JsValue.str _ => true
  | _ => false

/-- `typeof v === "number"`. -/
def JsValue.isNumber : JsValue → Bool
  | JsValue.num _ => true
  | _ => false

/-- The string content of a value already known to be a string. -/
def JsValue.asString : JsValue → String
  | JsValue.str s => s
  | _ => ""

/-- The numeric content of a value already known to be a number. -/
def JsValue.asNumber : JsValue → Int
  | JsValue.num n => n
  | _ => 0

/-- `Vehicle` from `types.ts`. -/
structure Vehicle where
  id : String
  registration : String
  make : String
  model : String
  year : Int
deriving Repr, DecidableEq

/-- `ValidationError` from `types.ts`. -/
structure ValidationError where
  field : String
  reason : String
deriving Repr, DecidableEq

/-- `VALID_KEYS` from `validation.ts`. -/
def VALID_KEYS : List String := ["TYRES", "BRAKES", "LIGHTS", "OIL", "COOLANT"]

/-- `VALID_STATUSES` from `validation.ts`. -/
def VALID_STATUSES : List String := ["OK", "FAIL"]

/-- `vehicleExists` from `database.ts`, over an explicit vehicle collection
(the source reads it from `vehicles.json`). -/
def vehicleExists (vehicles : List Vehicle) (vehicleId : String) : Bool :=
  vehicles.any (fun v => v.id == vehicleId)

/-- The `vehicleId` block of `validateCheckRequest` (validation.ts lines
77-84): required (falsy check), must be a string, must name an existing
vehicle. -/
def validateVehicleId (vehicles : List Vehicle) (v : JsValue) :
    List ValidationError :=
  if !v.truthy then [⟨"vehicleId", "is required"⟩]
  else if !v.isString then [⟨"vehicleId", "must be a string"⟩]
  else if !vehicleExists vehicles v.asString then
    [⟨"vehicleId", "vehicle does not exist"⟩]
  else []

/-- The `odometerKm` block of `validateCheckRequest` (validation.ts lines
86-93): required (strict `undefined`/`null` check), must be a number,
must be `> 0`. -/
def validateOdometerKm (v : JsValue) : List ValidationError :=
  if v.isUndefinedOrNull then
    [⟨"odometerKm", "is required"⟩]
  else if !v.isNumber then [⟨"odometerKm", "must be a number"⟩]
  else if v.asNumber ≤ 0 then [⟨"odometerKm", "must be > 0"⟩]
  else []

/-- The positional field path `items[idx].key` used by the validator. -/
def itemKeyField (idx : Nat) : String := "items[" ++ toString idx ++ "].key"

/-- The positional field path `items[idx].status` used by the validator. -/
def itemStatusField (idx : Nat) : String :=
  "items[" ++ toString idx ++ "].status"

/-- `VALID_KEYS.includes(v)`: strict equality against the key list, so any
non-string value is never a member. -/
def isValidKey (v : JsValue) : Bool :=
  match v with
  | JsValue.str s => VALID_KEYS.contains s
  | _ => false

/-- `VALID_STATUSES.includes(v)`. -/
def isValidStatus (v : JsValue) : Bool :=
  match v with
  | JsValue.str s => VALID_STATUSES.contains s
  | _ => false

/-- `keys.add(k)` on the insertion-ordered `Set<string>` of seen valid keys;
`List.length` of the model is the set's `size`. -/
def insertKey (keys : List String) (k : String) : List String :=
  if keys.contains k then keys else keys ++ [k]

/-- The key that the `forEach` loop body adds to the seen-key `Set` for one
item (validation.ts line 119): `some` exactly when `items[idx].key` passed
both the falsy check and the `VALID_KEYS` membership check. -/
def addedKey (key : JsValue) : Option String :=
  if !key.truthy then none
  else if !isValidKey key then none
  else some key.asString

/-- The errors pushed for `items[idx].key` (validation.ts lines 111-120). -/
def itemKeyErrors (idx : Nat) (key : JsValue) : List ValidationError :=
  if !key.truthy then [⟨itemKeyField idx, "is required"⟩]
  else if !isValidKey key then
    [⟨itemKeyField idx, "must be one of: TYRES, BRAKES, LIGHTS, OIL, COOLANT"⟩]
  else []

/-- The errors pushed for `items[idx].status` (validation.ts lines 122-129). -/
def itemStatusErrors (idx : Nat) (status : JsValue) : List ValidationError :=
  if !status.truthy then [⟨itemStatusField idx, "is required"⟩]
  else if !isValidStatus status then
    [⟨itemStatusField idx, "must be one of: OK, FAIL"⟩]
  else []

/-- One iteration of the `body.items.forEach` loop body (validation.ts lines
110-130): validates `items[idx].key` and `items[idx].status`, and reports the
key to add to the seen-key set.  Property access on the item throws
(propagates as `Except.error`) when the item is `null` or `undefined`. -/
def validateItem (idx : Nat) (item : JsValue) :
    Except String (List ValidationError × Option String) :=
  match item.getField "key" with
  | Except.error e => Except.error e
  | Except.ok key =>
    match item.getField "status" with
    | Except.error e => Except.error e
    | Except.ok status =>
      Except.ok (itemKeyErrors idx key ++ itemStatusErrors idx status,
        addedKey key)

/-- The full `forEach` loop over `body.items`, threading the element index and
the seen-key set and concatenating the per-item errors in source order. -/
def validateItemList :
    List JsValue → Nat → List String →
    Except String (List ValidationError × List String)
  | [], _, keys => Except.ok ([], keys)
  | item :: rest, idx, keys =>
    match validateItem idx item with
    | Except.error e => Except.error e
    | Except.ok r =>
      let keys1 := match r.2 with
        | some k => insertKey keys k
        | none => keys
      match validateItemList rest (idx + 1) keys1 with
      | Except.error e => Except.error e
      | Except.ok restR => Except.ok (r.1 ++ restR.1, restR.2)

/-- The set-level duplicate-key error (validation.ts lines 132-138). -/
def duplicateKeysError : ValidationError :=
  ⟨"items", "must contain all 5 keys exactly once (no duplicates)"⟩

/-- The set-level missing-key errors (validation.ts lines 140-145): one error
per required key absent from the seen-key set. -/
def missingKeyErrors (keys : List String) : List ValidationError :=
  VALID_KEYS.filterMap (fun k =>
    if keys.contains k then none
    else some ⟨"items", "missing required key: " ++ k⟩)

/-- The `items` block of `validateCheckRequest` (validation.ts lines 95-146):
required (falsy check), must be an array, then — in source order — the exact
length-5 check, the per-item loop, the set-level duplicate check (only when
the length is 5), and one missing-key error for each absent required key. -/
def validateItems (v : JsValue) : Except String (List ValidationError) :=
  if !v.truthy then Except.ok [⟨"items", "is required"⟩]
  else
    match v with
    | JsValue.arr xs =>
      match validateItemList xs 0 [] with
      | Except.error e => Except.error e
      | Except.ok loopR =>
        let lenErrs : List ValidationError :=
          if xs.length ≠ 5 then [⟨"items", "must contain exactly 5 items"⟩]
          else []
        let dupErrs : List ValidationError :=
          if xs.length = 5 ∧ loopR.2.length ≠ 5 then [duplicateKeysError]
          else []
        Except.ok (lenErrs ++ loopR.1 ++ dupErrs ++ missingKeyErrors loopR.2)
    | _ => Except.ok [⟨"items", "must be an array"⟩]

/-- The optional `note` block of `validateCheckRequest` (validation.ts lines
148-155): skipped entirely when `note` is `undefined` or `null`; otherwise
must be a string of length ≤ 300. -/
def validateNote (v : JsValue) : List ValidationError :=
  if !v.isUndefinedOrNull then
    if !v.isString then [⟨"note", "must be a string"⟩]
    else if v.asString.length > 300 then
      [⟨"note", "must be <= 300 characters"⟩]
    else []
  else []

/-- `validateCheckRequest` from `validation.ts`: runs the four per-field
blocks in source order and concatenates their errors.  Property access on the
payload throws (propagates as `Except.error`) when the payload itself — or an
element of `items` reached by the loop — is `null` or `undefined`. -/
def validateCheckRequest (vehicles : List Vehicle) (body : JsValue) :
    Except String (List ValidationError) :=
  match body.getField "vehicleId" with
  | Except.error e => Except.error e
  | Except.ok vId =>
    match body.getField "odometerKm" with
    | Except.error e => Except.error e
    | Except.ok odo =>
      match body.getField "items" with
      | Except.error e => Except.error e
      | Except.ok itemsV =>
        match body.getField "note" with
        | Except.error e => Except.error e
        | Except.ok noteV =>
          match validateItems itemsV with
          | Except.error e => Except.error e
          | Except.ok itemErrs =>
            Except.ok (validateVehicleId vehicles vId ++
              validateOdometerKm odo ++ itemErrs ++ validateNote noteV)

/-- `CheckItem` from `types.ts` (key and status are runtime strings drawn
from the closed sets `VALID_KEYS` / `VALID_STATUSES`). -/
structure CheckItem where
  key : String
  status : String
deriving Repr, DecidableEq

/-- `Check` from `types.ts`.  `note = none` means the `note` key is absent
from the record (the source builds the object with a conditional spread, so an
omitted note is truly absent, never `null` or `""`).  `createdAt` is the
epoch-millisecond timestamp encoded by the stored ISO-8601 string. -/
structure Check where
  id : String
  vehicleId : String
  odometerKm : Int
  items : List CheckItem
  note : Option String
  hasIssue : Bool
  createdAt : Nat
deriving Repr, DecidableEq

/-- `CreateCheckData` from `checkService.ts`.  `extraHasIssue` models a stray
`hasIssue` property a caller could attach to the input object at runtime; the
service never reads it (the TypeScript interface does not even declare it). -/
structure CreateCheckData where
  vehicleId : String
  odometerKm : Int
  items : List CheckItem
  note : Option String
  extraHasIssue : Option Bool
deriving Repr, DecidableEq

/-- `CheckFilters` from `checkService.ts`. -/
structure CheckFilters where
  vehicleId : String
  hasIssue : Option Bool
deriving Repr, DecidableEq

/-- `readChecks` from `database.ts`, over the explicit result of the
underlying `fs.readFileSync`/`JSON.parse` step: on success it returns the
parsed collection; on failure it catches the exception, logs, and returns the
empty array. -/
def readChecks (fsReadResult : Except String (List Check)) : List Check :=
  match fsReadResult with
  | Except.ok checks => checks
  | Except.error _ => []

/-- `writeChecks` from `database.ts`, over the explicit result of the
underlying `fs.writeFileSync` step: on success it returns normally; on
failure it catches the exception, logs, and re-throws it. -/
def writeChecks (fsWriteResult : Except String Unit) : Except String Unit :=
  match fsWriteResult with
  | Except.ok u => Except.ok u
  | Except.error e => Except.error e

/-- `createCheck` from `checkService.ts`: computes `hasIssue` as
`items.some(item => item.status === "FAIL")`, builds the new record with the
supplied fresh id and current timestamp (injected here, since the source
draws them from `uuidv4()` and `new Date()`), appends it to the read
collection and writes the collection back.  Returns the new record and the
collection that is written. -/
def createCheck (freshId : String) (now : Nat) (store : List Check)
    (checkData : CreateCheckData) : Check × List Check :=
  let hasIssue := checkData.items.any (fun item => item.status == "FAIL")
  let newCheck : Check :=
    { id := freshId
      vehicleId := checkData.vehicleId
      odometerKm := checkData.odometerKm
      items := checkData.items
      note := checkData.note
      hasIssue := hasIssue
      createdAt := now }
  (newCheck, store ++ [newCheck])

/-- The sort order of the source's comparator `(a, b) => tb - ta`:
`createdAt` descending. -/
def byCreatedAtDesc (a b : Check) : Bool := b.createdAt ≤ a.createdAt

/-- `getChecks` from `checkService.ts`: filter by `vehicleId` (required),
then by `hasIssue` when supplied, then stable-sort by `createdAt` descending
(JavaScript's `Array.prototype.sort` is stable). -/
def getChecks (store : List Check) (filters : CheckFilters) : List Check :=
  let checks := store.filter
    (fun check : Check => check.vehicleId == filters.vehicleId)
  let checks2 :=
    match filters.hasIssue with
    | some b => checks.filter (fun check : Check => check.hasIssue == b)
    | none => checks
  checks2.mergeSort byCreatedAtDesc

/-- `getCheckById` from `checkService.ts`. -/
def getCheckById (store : List Check) (checkId : String) : Option Check :=
  store.find? (fun check : Check => check.id == checkId)

/-- `deleteCheck` from `checkService.ts`: filters out the record with the
given id; when nothing was removed it returns `false` without calling
`writeChecks` (second component `none`); otherwise it writes the filtered
collection (second component `some`) and returns `true`. -/
def deleteCheck (store : List Check) (checkId : String) :
    Bool × Option (List Check) :=
  let initialLength := store.length
  let filteredChecks := store.filter (fun check : Check => check.id != checkId)
  if filteredChecks.length = initialLength then (false, none)
  else (true, some filteredChecks)

/-! Concrete sample data, mirroring the repository's seeded vehicle `VH001`
and the example payloads in the source doc comments. -/

/-- The seeded vehicle `VH001`. -/
def demoVehicles : List Vehicle :=
  [⟨"VH001", "ABC123", "Toyota", "Hilux", 2020⟩]

/-- An all-`OK` five-item assignment, as `CheckItem` values. -/
def demoOkItems : List CheckItem :=
  [⟨"TYRES", "OK"⟩, ⟨"BRAKES", "OK"⟩, ⟨"LIGHTS", "OK"⟩, ⟨"OIL", "OK"⟩,
   ⟨"COOLANT", "OK"⟩]

/-- A valid all-`OK` creation input for vehicle `VH001`. -/
def demoAllOkData : CreateCheckData :=
  ⟨"VH001", 15000, demoOkItems, some "fine", none⟩

/-- The all-`OK` five-item assignment as a JSON array value. -/
def demoOkItemsJson : JsValue :=
  JsValue.arr
    [JsValue.obj [("key", JsValue.str "TYRES"), ("status", JsValue.str "OK")],
     JsValue.obj [("key", JsValue.str "BRAKES"), ("status", JsValue.str "OK")],
     JsValue.obj [("key", JsValue.str "LIGHTS"), ("status", JsValue.str "OK")],
     JsValue.obj [("key", JsValue.str "OIL"), ("status", JsValue.str "OK")],
     JsValue.obj [("key", JsValue.str "COOLANT"), ("status", JsValue.str "OK")]]

/-- A sample persisted check for vehicle `V`. -/
def demoCheckV1 : Check := ⟨"chk-1", "V", 100, demoOkItems, none, true, 10⟩

/-- A second sample persisted check for vehicle `V`. -/
def demoCheckV2 : Check := ⟨"chk-2", "V", 200, demoOkItems, none, false, 20⟩

/-- A sample store holding the two checks for vehicle `V`. -/
def demoStore : List Check := [demoCheckV1, demoCheckV2]

/-! ### Helper lemmas -/

/-- Unfolding equation for `deleteCheck`. -/
theorem deleteCheck_eq (store : List Check) (checkId : String) :
    deleteCheck store checkId =
      if (store.filter (fun check : Check => check.id != checkId)).length =
          store.length
      then (false, none)
      else (true,
        some (store.filter (fun check : Check => check.id != checkId))) := rfl

/-- The filtered length is the full length iff no stored check has the id. -/
theorem filter_length_eq_iff (store : List Check) (checkId : String) :
    (store.filter (fun check : Check => check.id != checkId)).length =
      store.length ↔ ∀ c ∈ store, c.id ≠ checkId := by
  rw [← List.countP_eq_length_filter, List.countP_eq_length]
  constructor
  · intro h c hc
    have := h c hc
    simpa using this
  · intro h c hc
    simpa using h c hc

/-! ### C1 -/

/-- C1: for every creation input, the Check returned (and persisted) by
`createCheck` has `hasIssue = true` iff at least one item's status is exactly
the string `"FAIL"`; `hasIssue = false` when all statuses are `"OK"`;
`hasIssue` is computed from `items` alone, so a stray input `hasIssue` never
influences the result; and the persisted collection is the old store with
exactly the returned check appended. -/
theorem createCheck_hasIssue_spec (freshId : String) (now : Nat)
    (store : List Check) (data : CreateCheckData) :
    ((createCheck freshId now store data).1.hasIssue = true ↔
      ∃ item ∈ data.items, item.status = "FAIL")
    ∧ ((∀ item ∈ data.items, item.status = "OK") →
      (createCheck freshId now store data).1.hasIssue = false)
    ∧ (∀ b : Option Bool,
      (createCheck freshId now store
        { data with extraHasIssue := b }).1.hasIssue =
        (createCheck freshId now store data).1.hasIssue)
    ∧ (createCheck freshId now store data).2 =
        store ++ [(createCheck freshId now store data).1] := by
  refine ⟨?_, ?_, fun b => rfl, rfl⟩
  · simp [createCheck, List.any_eq_true]
  · intro h
    simp only [createCheck, List.any_eq_true]
    simp only [Bool.not_eq_true, List.any_eq_false]
    intro item hitem
    have := h item hitem
    simp [this]

/-- C1 witness: the all-`OK` sample input yields `hasIssue = false`. -/
theorem createCheck_hasIssue_spec_witness :
    (createCheck "chk-9" 1000 [] demoAllOkData).1.hasIssue = false :=
  (createCheck_hasIssue_spec "chk-9" 1000 [] demoAllOkData).2.1 (by decide)

/-! ### C2 -/

/-- C2: the check built by `createCheck` carries exactly the supplied note —
`none` (key absent, never `null` or `""`) when no note was supplied, and the
unchanged string otherwise — and the same record is what is persisted. -/
theorem createCheck_note_spec (freshId : String) (now : Nat)
    (store : List Check) (data : CreateCheckData) :
    (createCheck freshId now store data).1.note = data.note
    ∧ (data.note = none → (createCheck freshId now store data).1.note = none)
    ∧ (∀ s : String, data.note = some s →
        (createCheck freshId now store data).1.note = some s)
    ∧ (createCheck freshId now store data).2 =
        store ++ [(createCheck freshId now store data).1] := by
  refine ⟨rfl, ?_, ?_, rfl⟩
  · intro h
    simp [createCheck, h]
  · intro s h
    simp [createCheck, h]

/-- C2 witness: a note-free input produces a note-free record, and a supplied
note appears unchanged. -/
theorem createCheck_note_spec_witness :
    (createCheck "chk-8" 1000 []
      ⟨"VH001", 15000, demoOkItems, none, none⟩).1.note = none ∧
    (createCheck "chk-8" 1000 [] demoAllOkData).1.note = some "fine" :=
  ⟨(createCheck_note_spec "chk-8" 1000 []
      ⟨"VH001", 15000, demoOkItems, none, none⟩).2.1 rfl,
   (createCheck_note_spec "chk-8" 1000 [] demoAllOkData).2.2.1 "fine" rfl⟩

/-! ### C3 -/

/-- C3 counterexample: a failed read is NOT propagated — `readChecks`
swallows the I/O error and silently yields the empty collection, contrary to
the claim that a read failure does not silently yield an empty collection. -/
theorem readChecks_swallows_read_fault :
    readChecks (Except.error "EACCES: permission denied") = [] := rfl

/-- C3 (amended): a failed write is propagated upward uncaught by
`writeChecks` (never reported as success), while a failed read is caught
inside `readChecks` and yields the empty collection; a successful read
returns the parsed collection unchanged. -/
theorem storage_fault_propagation (e : String) (checks : List Check) :
    writeChecks (Except.error e) = Except.error e
    ∧ writeChecks (Except.error e) ≠ Except.ok ()
    ∧ readChecks (Except.error e) = []
    ∧ readChecks (Except.ok checks) = checks := by
  refine ⟨rfl, fun h => ?_, rfl, rfl⟩
  simp [writeChecks] at h

/-- C3 witness: the amended behaviour at a concrete fault and store. -/
theorem storage_fault_propagation_witness :
    writeChecks (Except.error "ENOSPC: no space left on device") =
      Except.error "ENOSPC: no space left on device" :=
  (storage_fault_propagation "ENOSPC: no space left on device" []).1

/-! ### C5 -/

/-- C5: `deleteCheck` returns `true` iff a check with the id existed; on
`true` the written store contains no check with that id (so no `getChecks`
result ever includes it, and a second delete returns `false` and performs no
write); on `false` no write occurs (the second component is `none`). -/
theorem deleteCheck_spec (store : List Check) (checkId : String) :
    ((deleteCheck store checkId).1 = true ↔ ∃ c ∈ store, c.id = checkId)
    ∧ ((deleteCheck store checkId).1 = false →
        (deleteCheck store checkId).2 = none)
    ∧ (∀ newStore, (deleteCheck store checkId).2 = some newStore →
        (∀ filters : CheckFilters, ∀ c ∈ getChecks newStore filters,
          c.id ≠ checkId)
        ∧ deleteCheck newStore checkId = (false, none)) := by
  refine ⟨?_, ?_, ?_⟩
  · rw [deleteCheck_eq]
    constructor
    · intro h
      by_contra hc
      push_neg at hc
      rw [(filter_length_eq_iff store checkId).mpr hc] at h
      simp at h
    · rintro ⟨c, hc, hid⟩
      split
      · rename_i hlen
        exact absurd ((filter_length_eq_iff store checkId).mp hlen c hc) (by
          simp [hid])
      · rfl
  · intro h
    rw [deleteCheck_eq] at h ⊢
    split at h
    · simp_all
    · simp_all
  · intro newStore h
    have hnew : newStore =
        store.filter (fun check : Check => check.id != checkId) := by
      rw [deleteCheck_eq] at h
      split at h
      · simp_all
      · simp_all
    have hmem : ∀ c ∈ newStore, c.id ≠ checkId := by
      intro c hc
      rw [hnew] at hc
      have := List.of_mem_filter hc
      simpa using this
    constructor
    · intro filters c hc
      apply hmem
      have h1 : c ∈ (match filters.hasIssue with
          | some b => (newStore.filter
              (fun check : Check => check.vehicleId == filters.vehicleId)).filter
              (fun check : Check => check.hasIssue == b)
          | none => newStore.filter
              (fun check : Check => check.vehicleId == filters.vehicleId)) := by
        have := hc
        unfold getChecks at this
        rw [List.mem_mergeSort] at this
        exact this
      match hi : filters.hasIssue with
      | some b =>
        rw [hi] at h1
        exact (List.mem_filter.mp (List.mem_filter.mp h1).1).1
      | none =>
        rw [hi] at h1
        exact (List.mem_filter.mp h1).1
    · have hself : newStore.filter (fun check : Check => check.id != checkId) =
          newStore := by
        rw [List.filter_eq_self]
        intro c hc
        simpa using hmem c hc
      rw [deleteCheck_eq, hself]
      simp

/-- C5 witness: deleting an existing id succeeds and the rewritten store no
longer yields it; deleting a missing id performs no write. -/
theorem deleteCheck_spec_witness :
    ((deleteCheck demoStore "chk-1").1 = true)
    ∧ (deleteCheck [demoCheckV2] "chk-1").2 = none := by
  constructor
  · exact (deleteCheck_spec demoStore "chk-1").1.mpr
      ⟨demoCheckV1, by decide, rfl⟩
  · exact (deleteCheck_spec [demoCheckV2] "chk-1").2.1 (by decide)

/-! ### Sort-order lemmas -/

/-- The descending `createdAt` order is transitive. -/
theorem byCreatedAtDesc_trans (a b c : Check) :
    byCreatedAtDesc a b → byCreatedAtDesc b c → byCreatedAtDesc a c := by
  simp only [byCreatedAtDesc, decide_eq_true_eq]
  omega

/-- The descending `createdAt` order is total. -/
theorem byCreatedAtDesc_total (a b : Check) :
    byCreatedAtDesc a b || byCreatedAtDesc b a := by
  simp only [byCreatedAtDesc, Bool.or_eq_true, decide_eq_true_eq]
  omega

/-- Unfolding equation for `getChecks`. -/
theorem getChecks_eq (store : List Check) (filters : CheckFilters) :
    getChecks store filters =
      (match filters.hasIssue with
        | some b =>
          (store.filter
            (fun c : Check => c.vehicleId == filters.vehicleId)).filter
            (fun c : Check => c.hasIssue == b)
        | none =>
          store.filter
            (fun c : Check => c.vehicleId == filters.vehicleId)).mergeSort
        byCreatedAtDesc := rfl

/-! ### C7 -/

/-- C7: `getChecks` returns exactly the stored checks whose `vehicleId`
matches the filter, narrowed by `hasIssue` equality when supplied (a
permutation of the filtered subsequence, with a membership
characterization), sorted by `createdAt` descending (for any two returned
checks `a` before `b`, `a.createdAt ≥ b.createdAt`), and returns the empty
sequence on the empty store. -/
theorem getChecks_spec (store : List Check) (filters : CheckFilters) :
    (getChecks store filters).Pairwise
      (fun a b : Check => b.createdAt ≤ a.createdAt)
    ∧ (getChecks store filters).Perm
        ((store.filter
          (fun c : Check => c.vehicleId == filters.vehicleId)).filter
          (fun c : Check =>
            match filters.hasIssue with
            | some b => c.hasIssue == b
            | none => true))
    ∧ (∀ c : Check, c ∈ getChecks store filters ↔
        c ∈ store ∧ c.vehicleId = filters.vehicleId ∧
          ∀ b, filters.hasIssue = some b → c.hasIssue = b)
    ∧ getChecks [] filters = [] := by
  refine ⟨?_, ?_, ?_, ?_⟩
  · rw [getChecks_eq]
    have h := List.sorted_mergeSort byCreatedAtDesc_trans byCreatedAtDesc_total
      (match filters.hasIssue with
        | some b =>
          (store.filter
            (fun c : Check => c.vehicleId == filters.vehicleId)).filter
            (fun c : Check => c.hasIssue == b)
        | none =>
          store.filter (fun c : Check => c.vehicleId == filters.vehicleId))
    exact h.imp (fun hab => by simpa [byCreatedAtDesc] using hab)
  · rw [getChecks_eq]
    cases hi : filters.hasIssue with
    | none =>
      simp only [hi]
      exact (List.mergeSort_perm _ _).trans
        (by rw [List.filter_eq_self.mpr (fun c hc => rfl)])
    | some b =>
      simp only [hi]
      exact List.mergeSort_perm _ _
  · intro c
    rw [getChecks_eq]
    rw [List.mem_mergeSort]
    cases hi : filters.hasIssue with
    | none =>
      simp only [hi, List.mem_filter]
      constructor
      · rintro ⟨hc, hv⟩
        exact ⟨hc, by simpa using hv, fun b hb => by cases hb⟩
      · rintro ⟨hc, hv, _⟩
        exact ⟨hc, by simpa using hv⟩
    | some b =>
      simp only [hi, List.mem_filter]
      constructor
      · rintro ⟨⟨hc, hv⟩, hb⟩
        refine ⟨hc, by simpa using hv, fun b2 hb2 => ?_⟩
        cases hb2
        simpa using hb
      · rintro ⟨hc, hv, hball⟩
        exact ⟨⟨hc, by simpa using hv⟩, by simpa using hball b rfl⟩
  · rw [getChecks_eq]
    cases hi : filters.hasIssue <;> simp [hi]

/-- C7 witness: the sample store filtered for vehicle `V` with an issue
contains exactly the matching check. -/
theorem getChecks_spec_witness :
    demoCheckV1 ∈ getChecks demoStore ⟨"V", some true⟩ :=
  ((getChecks_spec demoStore ⟨"V", some true⟩).2.2.1 demoCheckV1).mpr
    ⟨by decide, by decide, fun b hb => by cases hb; rfl⟩

/-! ### Stability: filtering commutes with the stable sort -/

/-- Two decompositions of one list into an all-`Q` prefix and an all-not-`Q`
suffix coincide. -/
theorem append_eq_append_pred {α : Type} {Q : α → Bool} :
    ∀ {l₁ l₂ m₁ m₂ : List α}, l₁ ++ l₂ = m₁ ++ m₂ →
    (∀ b ∈ l₁, Q b = true) → (∀ b ∈ l₂, Q b = false) →
    (∀ b ∈ m₁, Q b = true) → (∀ b ∈ m₂, Q b = false) →
    l₁ = m₁ ∧ l₂ = m₂ := by
  intro l₁
  induction l₁ with
  | nil =>
    intro l₂ m₁ m₂ h _ ht2 ht3 _
    cases m₁ with
    | nil => exact ⟨rfl, by simpa using h⟩
    | cons y m₁ =>
      exfalso
      have hy : y ∈ l₂ := by
        rw [List.nil_append] at h
        rw [h]
        exact List.mem_cons_self y _
      have h1 := ht2 y hy
      have h2 := ht3 y (List.mem_cons_self y _)
      rw [h1] at h2
      cases h2
  | cons x l₁ ih =>
    intro l₂ m₁ m₂ h ht1 ht2 ht3 ht4
    cases m₁ with
    | nil =>
      exfalso
      have hx : x ∈ m₂ := by
        rw [List.nil_append] at h
        rw [← h]
        exact List.mem_cons_self x _
      have h1 := ht4 x hx
      have h2 := ht1 x (List.mem_cons_self x _)
      rw [h1] at h2
      cases h2
    | cons y m₁ =>
      simp only [List.cons_append, List.cons.injEq] at h
      obtain ⟨rfl, htl⟩ := h
      obtain ⟨e1, e2⟩ := ih htl (fun b hb => ht1 b (List.mem_cons_of_mem _ hb))
        ht2 (fun b hb => ht3 b (List.mem_cons_of_mem _ hb)) ht4
      exact ⟨by rw [e1], e2⟩

/-- Filtering commutes with `mergeSort` for a transitive total order: this is
exactly the stability of the sort. -/
theorem filter_mergeSort {α : Type} (le : α → α → Bool)
    (trans : ∀ a b c : α, le a b → le b c → le a c)
    (total : ∀ a b : α, le a b || le b a) (p : α → Bool) :
    ∀ l : List α, (l.mergeSort le).filter p = (l.filter p).mergeSort le := by
  intro l
  induction l with
  | nil => simp
  | cons a l ih =>
    obtain ⟨l₁, l₂, e1, e2, h3⟩ := List.mergeSort_cons trans total a l
    cases hp : p a with
    | false =>
      have hskip : List.filter p (a :: l₂) = List.filter p l₂ := by
        simp [List.filter_cons, hp]
      have hskip2 : List.filter p (a :: l) = List.filter p l := by
        simp [List.filter_cons, hp]
      rw [e1, List.filter_append, hskip, ← List.filter_append, ← e2, ih, hskip2]
    | true =>
      have sorted1 : (l₁ ++ a :: l₂).Pairwise (fun x y => le x y = true) := by
        rw [← e1]
        exact List.sorted_mergeSort trans total (a :: l)
      have hl₂ : ∀ b ∈ l₂, le a b = true := by
        intro b hb
        exact ((List.pairwise_cons.mp
          (List.pairwise_append.mp sorted1).2.1).1 b hb)
      obtain ⟨m₁, m₂, f1, f2, g3⟩ :=
        List.mergeSort_cons trans total a (l.filter p)
      have sorted2 : (m₁ ++ a :: m₂).Pairwise (fun x y => le x y = true) := by
        rw [← f1]
        exact List.sorted_mergeSort trans total (a :: l.filter p)
      have hm₂ : ∀ b ∈ m₂, le a b = true := by
        intro b hb
        exact ((List.pairwise_cons.mp
          (List.pairwise_append.mp sorted2).2.1).1 b hb)
      have key : l₁.filter p ++ l₂.filter p = m₁ ++ m₂ := by
        have ihe := ih
        rw [e2, f2] at ihe
        rw [← List.filter_append]
        exact ihe
      obtain ⟨k1, k2⟩ := append_eq_append_pred (Q := fun b => !le a b) key
        (fun b hb => by simpa using h3 b (List.mem_of_mem_filter hb))
        (fun b hb => by simp [hl₂ b (List.mem_of_mem_filter hb)])
        (fun b hb => by simpa using g3 b hb)
        (fun b hb => by simp [hm₂ b hb])
      have hkeep : List.filter p (a :: l₂) = a :: List.filter p l₂ := by
        simp [List.filter_cons, hp]
      have hkeep2 : List.filter p (a :: l) = a :: List.filter p l := by
        simp [List.filter_cons, hp]
      rw [e1, List.filter_append, hkeep, k1, k2, ← f1, hkeep2]

/-! ### C6 -/

/-- C6: for every store and vehicle id, filtering `getChecks` by
`hasIssue = true` yields exactly the `hasIssue`-true elements of the
unfiltered query (as lists, order included), `hasIssue = false` yields the
complementary elements, and the two results together partition the full
vehicle-filtered result. -/
theorem getChecks_hasIssue_partition (store : List Check) (v : String) :
    getChecks store ⟨v, some true⟩ =
      (getChecks store ⟨v, none⟩).filter (fun c : Check => c.hasIssue == true)
    ∧ getChecks store ⟨v, some false⟩ =
      (getChecks store ⟨v, none⟩).filter
        (fun c : Check => c.hasIssue == false)
    ∧ (getChecks store ⟨v, some true⟩ ++
        getChecks store ⟨v, some false⟩).Perm (getChecks store ⟨v, none⟩) := by
  have h1 : ∀ b : Bool, getChecks store ⟨v, some b⟩ =
      (getChecks store ⟨v, none⟩).filter (fun c : Check => c.hasIssue == b) := by
    intro b
    rw [getChecks_eq, getChecks_eq]
    exact (filter_mergeSort byCreatedAtDesc byCreatedAtDesc_trans
      byCreatedAtDesc_total (fun c : Check => c.hasIssue == b)
      (store.filter (fun c : Check => c.vehicleId == v))).symm
  refine ⟨h1 true, h1 false, ?_⟩
  rw [h1 true, h1 false]
  have hneg : (fun c : Check => c.hasIssue == false) =
      (fun c : Check => !(c.hasIssue == true)) := by
    funext c
    cases c.hasIssue <;> rfl
  rw [hneg]
  exact List.filter_append_perm _ _

/-! ### Validator helper lemmas -/

/-- Property access succeeds on any value other than `null`/`undefined`. -/
theorem getField_ok_of_not_nullish (v : JsValue) (f : String)
    (h : v.isUndefinedOrNull = false) :
    ∃ w, v.getField f = Except.ok w := by
  cases v with
  | null => simp [JsValue.isUndefinedOrNull] at h
  | undefined => simp [JsValue.isUndefinedOrNull] at h
  | bool b => exact ⟨_, rfl⟩
  | num n => exact ⟨_, rfl⟩
  | str s => exact ⟨_, rfl⟩
  | arr elems => exact ⟨_, rfl⟩
  | obj fields => exact ⟨_, rfl⟩

/-- The per-item validation never raises on a non-`null`/`undefined` item. -/
theorem validateItem_ok (idx : Nat) (item : JsValue)
    (h : item.isUndefinedOrNull = false) :
    ∃ r, validateItem idx item = Except.ok r := by
  obtain ⟨k, hk⟩ := getField_ok_of_not_nullish item "key" h
  obtain ⟨s, hs⟩ := getField_ok_of_not_nullish item "status" h
  simp [validateItem, hk, hs]

/-- The `forEach` loop never raises when every item is
non-`null`/`undefined`. -/
theorem validateItemList_ok :
    ∀ (xs : List JsValue) (idx : Nat) (keys : List String),
    (∀ x ∈ xs, x.isUndefinedOrNull = false) →
    ∃ r, validateItemList xs idx keys = Except.ok r := by
  intro xs
  induction xs with
  | nil => exact fun idx keys h => ⟨_, rfl⟩
  | cons item rest ih =>
    intro idx keys h
    obtain ⟨r, hr⟩ := validateItem_ok idx item (h item (List.mem_cons_self _ _))
    obtain ⟨errs, added⟩ := r
    have htail := fun x hx => h x (List.mem_cons_of_mem _ hx)
    cases added with
    | none =>
      obtain ⟨r2, hr2⟩ := ih (idx + 1) keys htail
      simp [validateItemList, hr, hr2]
    | some k =>
      obtain ⟨r2, hr2⟩ := ih (idx + 1) (insertKey keys k) htail
      simp [validateItemList, hr, hr2]

/-- The `items` block never raises when every array element is
non-`null`/`undefined`. -/
theorem validateItems_ok (v : JsValue)
    (h : ∀ xs, v = JsValue.arr xs → ∀ x ∈ xs, x.isUndefinedOrNull = false) :
    ∃ errs, validateItems v = Except.ok errs := by
  cases v with
  | arr xs =>
    obtain ⟨r, hr⟩ := validateItemList_ok xs 0 [] (h xs rfl)
    simp [validateItems, JsValue.truthy, hr]
  | null => exact ⟨_, rfl⟩
  | undefined => exact ⟨_, rfl⟩
  | bool b => cases b with
    | false => exact ⟨_, rfl⟩
    | true => exact ⟨_, rfl⟩
  | num n =>
    cases hn : n != 0 with
    | false => simp [validateItems, JsValue.truthy, hn]
    | true => simp [validateItems, JsValue.truthy, hn]
  | str s =>
    cases hs : s != "" with
    | false => simp [validateItems, JsValue.truthy, hs]
    | true => simp [validateItems, JsValue.truthy, hs]
  | obj fields => exact ⟨_, rfl⟩

/-! ### C4 -/

/-- C4 counterexample: `validateCheckRequest` DOES raise on the `null`
payload — the first property access throws a `TypeError` — contrary to the
claim that it never raises for any payload value including `null`. -/
theorem validateCheckRequest_raises_on_null :
    validateCheckRequest [] JsValue.null =
      Except.error "TypeError: cannot read vehicleId of null" := rfl

/-- C4 (amended): `validateCheckRequest` returns a list of field/reason
errors without raising for every payload that is not `null`/`undefined` and
whose `items` elements (when `items` is an array) are not
`null`/`undefined`; and for the empty-object payload it returns exactly one
error for each of the three missing required top-level fields, not stopping
at the first one. -/
theorem validateCheckRequest_total_or_all_missing :
    (∀ (vehicles : List Vehicle) (body : JsValue),
      body.isUndefinedOrNull = false →
      (∀ xs, body.getField "items" = Except.ok (JsValue.arr xs) →
        ∀ x ∈ xs, x.isUndefinedOrNull = false) →
      ∃ errs, validateCheckRequest vehicles body = Except.ok errs)
    ∧ ∀ vehicles : List Vehicle,
        validateCheckRequest vehicles (JsValue.obj []) =
          Except.ok [⟨"vehicleId", "is required"⟩,
            ⟨"odometerKm", "is required"⟩, ⟨"items", "is required"⟩] := by
  constructor
  · intro vehicles body hb hit
    obtain ⟨v1, h1⟩ := getField_ok_of_not_nullish body "vehicleId" hb
    obtain ⟨v2, h2⟩ := getField_ok_of_not_nullish body "odometerKm" hb
    obtain ⟨v3, h3⟩ := getField_ok_of_not_nullish body "items" hb
    obtain ⟨v4, h4⟩ := getField_ok_of_not_nullish body "note" hb
    obtain ⟨errs, he⟩ := validateItems_ok v3
      (fun xs hxs => hit xs (by rw [h3, hxs]))
    simp [validateCheckRequest, h1, h2, h3, h4, he]
  · intro vehicles
    rfl

/-- C4 witness: the amended theorem applied at the empty-object payload. -/
theorem validateCheckRequest_total_witness :
    ∃ errs, validateCheckRequest [] (JsValue.obj []) = Except.ok errs :=
  validateCheckRequest_total_or_all_missing.1 [] (JsValue.obj []) rfl
    (fun xs hxs => by simp [JsValue.getField, lookupField] at hxs)

/-! ### C9 -/

/-- C9: supplying `note: null` is validated exactly like omitting `note` —
the note rules are skipped for `null` just as for an absent note — so an
otherwise-valid payload carrying `note: null` is accepted with the empty
error list, as the concrete all-`OK` payload shows. -/
theorem validateCheckRequest_null_note (vehicles : List Vehicle)
    (vId odo itemsV : JsValue) :
    validateCheckRequest vehicles (JsValue.obj
      [("vehicleId", vId), ("odometerKm", odo), ("items", itemsV),
       ("note", JsValue.null)]) =
      validateCheckRequest vehicles (JsValue.obj
        [("vehicleId", vId), ("odometerKm", odo), ("items", itemsV)])
    ∧ validateCheckRequest demoVehicles (JsValue.obj
        [("vehicleId", JsValue.str "VH001"),
         ("odometerKm", JsValue.num 15000),
         ("items", demoOkItemsJson), ("note", JsValue.null)]) =
      Except.ok [] := by
  constructor
  · rfl
  · rfl

/-! ### C10: counting only enumeration-members toward the distinct total -/

/-- Unfolding equation for `validateItemList` on a cons cell. -/
theorem validateItemList_cons_eq (item : JsValue) (rest : List JsValue)
    (idx : Nat) (keys : List String) :
    validateItemList (item :: rest) idx keys =
      match validateItem idx item with
      | Except.error e => Except.error e
      | Except.ok r =>
        match validateItemList rest (idx + 1)
          (match r.2 with | some k => insertKey keys k | none => keys) with
        | Except.error e => Except.error e
        | Except.ok restR => Except.ok (r.1 ++ restR.1, restR.2) := rfl

/-- An items array built from a list of key strings paired with status
values, as submitted by a client. -/
def buildItems (ks : List String) (sts : List JsValue) : List JsValue :=
  (ks.zip sts).map (fun p =>
    JsValue.obj [("key", JsValue.str p.1), ("status", p.2)])

/-- `validateItem` on a built item evaluates on its key and status. -/
theorem validateItem_buildItem (idx : Nat) (k : String) (st : JsValue) :
    validateItem idx (JsValue.obj [("key", JsValue.str k), ("status", st)]) =
      Except.ok (itemKeyErrors idx (JsValue.str k) ++
        itemStatusErrors idx st, addedKey (JsValue.str k)) := by
  simp [validateItem, JsValue.getField, lookupField]

/-- A key is only ever added to the seen-key set when it is a member of the
five-key enumeration. -/
theorem addedKey_implies_valid (k : String) (k2 : String)
    (h : addedKey (JsValue.str k) = some k2) :
    VALID_KEYS.contains k = true := by
  unfold addedKey at h
  split at h
  · cases h
  · split at h
    · cases h
    · rename_i h2
      have : isValidKey (JsValue.str k) = true := by
        revert h2
        cases isValidKey (JsValue.str k) <;> simp
      simpa [isValidKey] using this

/-- The seen-key set grows by at most one per insertion. -/
theorem insertKey_length (keys : List String) (k : String) :
    (insertKey keys k).length ≤ keys.length + 1 := by
  unfold insertKey
  split
  · omega
  · simp

/-- Running the loop over a built items array never raises, and the final
seen-key set is bounded by the number of enumeration-member keys submitted:
keys outside the enumeration are never counted. -/
theorem validateItemList_buildItems :
    ∀ (ks : List String) (sts : List JsValue) (idx : Nat)
      (keys : List String), ks.length = sts.length →
    ∃ errs fk, validateItemList (buildItems ks sts) idx keys =
        Except.ok (errs, fk) ∧
      fk.length ≤ keys.length +
        ks.countP (fun k => VALID_KEYS.contains k) := by
  intro ks
  induction ks with
  | nil =>
    intro sts idx keys h
    cases sts with
    | nil => exact ⟨[], keys, rfl, by simp⟩
    | cons st sts => simp at h
  | cons k ks ih =>
    intro sts idx keys h
    cases sts with
    | nil => simp at h
    | cons st sts =>
      have hlen : ks.length = sts.length := by simpa using h
      have hbuild : buildItems (k :: ks) (st :: sts) =
          JsValue.obj [("key", JsValue.str k), ("status", st)] ::
            buildItems ks sts := by
        simp [buildItems]
      cases hak : addedKey (JsValue.str k) with
      | none =>
        obtain ⟨errs, fk, hrec, hbound⟩ := ih sts (idx + 1) keys hlen
        have hcall : validateItemList (buildItems (k :: ks) (st :: sts)) idx
            keys = Except.ok ((itemKeyErrors idx (JsValue.str k) ++
              itemStatusErrors idx st) ++ errs, fk) := by
          rw [hbuild, validateItemList_cons_eq]
          simp only [validateItem_buildItem, hak, hrec]
        refine ⟨_, fk, hcall, ?_⟩
        have : ks.countP (fun k => VALID_KEYS.contains k) ≤
            (k :: ks).countP (fun k => VALID_KEYS.contains k) := by
          rw [List.countP_cons]
          omega
        omega
      | some k2 =>
        obtain ⟨errs, fk, hrec, hbound⟩ := ih sts (idx + 1) (insertKey keys k2)
          hlen
        have hcall : validateItemList (buildItems (k :: ks) (st :: sts)) idx
            keys = Except.ok ((itemKeyErrors idx (JsValue.str k) ++
              itemStatusErrors idx st) ++ errs, fk) := by
          rw [hbuild, validateItemList_cons_eq]
          simp only [validateItem_buildItem, hak, hrec]
        refine ⟨_, fk, hcall, ?_⟩
        have h1 := insertKey_length keys k2
        have h2 := addedKey_implies_valid k k2 hak
        rw [List.countP_cons]
        simp only [h2, if_pos]
        omega

/-- At most four submitted keys are enumeration members when one of the five
keys is outside the enumeration. -/
theorem countP_valid_le_four (ks : List String) (h5 : ks.length = 5)
    (k0 : String) (hk0 : k0 ∈ ks) (hc0 : VALID_KEYS.contains k0 = false) :
    ks.countP (fun k => VALID_KEYS.contains k) ≤ 4 := by
  by_contra hcon
  push_neg at hcon
  have hle := List.countP_le_length (p := fun k => VALID_KEYS.contains k)
    (l := ks)
  have heq : ks.countP (fun k => VALID_KEYS.contains k) = ks.length := by
    omega
  have hall := List.countP_eq_length.mp heq
  have := hall k0 hk0
  rw [hc0] at this
  cases this

/-- C10: an items array of exactly five pairwise-distinct keys where at least
one key is not in the five-key enumeration still triggers the set-level
duplicate-keys error, because only enumeration-member keys are counted toward
the distinct-key total. -/
theorem validateItems_ghost_duplicate_error (ks : List String)
    (sts : List JsValue) (h5 : ks.length = 5) (hsts : sts.length = 5)
    (hdist : ks.Pairwise (fun a b => a ≠ b))
    (hinv : ∃ k ∈ ks, VALID_KEYS.contains k = false) :
    ∃ errs, validateItems (JsValue.arr (buildItems ks sts)) = Except.ok errs
      ∧ duplicateKeysError ∈ errs := by
  obtain ⟨k0, hk0, hc0⟩ := hinv
  obtain ⟨errs, fk, hloop, hbound⟩ :=
    validateItemList_buildItems ks sts 0 [] (by rw [h5, hsts])
  have hlen : (buildItems ks sts).length = 5 := by
    simp [buildItems, h5, hsts]
  have hcount := countP_valid_le_four ks h5 k0 hk0 hc0
  have hfk : fk.length ≠ 5 := by
    simp only [List.length_nil, Nat.zero_add] at hbound
    omega
  have htr : (JsValue.arr (buildItems ks sts)).truthy = true := rfl
  have hcall : validateItems (JsValue.arr (buildItems ks sts)) =
      Except.ok ([] ++ errs ++ [duplicateKeysError] ++ missingKeyErrors fk) := by
    simp [validateItems, htr, hloop, hlen, hfk]
  refine ⟨_, hcall, ?_⟩
  simp

/-- C10 witness: five distinct keys with `WIPERS` in place of `COOLANT`
produce the duplicate-keys error. -/
theorem validateItems_ghost_duplicate_error_witness :
    ∃ errs, validateItems (JsValue.arr (buildItems
      ["TYRES", "BRAKES", "LIGHTS", "OIL", "WIPERS"]
      [JsValue.str "OK", JsValue.str "OK", JsValue.str "OK",
       JsValue.str "OK", JsValue.str "OK"])) = Except.ok errs
      ∧ duplicateKeysError ∈ errs :=
  validateItems_ghost_duplicate_error
    ["TYRES", "BRAKES", "LIGHTS", "OIL", "WIPERS"]
    [JsValue.str "OK", JsValue.str "OK", JsValue.str "OK",
     JsValue.str "OK", JsValue.str "OK"]
    (by decide) rfl (by decide) (by decide)

/-! ### C8: falsy-based presence checks -/

/-- Every `odometerKm`-block error is on the `odometerKm` field. -/
theorem validateOdometerKm_field (v : JsValue) (e : ValidationError)
    (he : e ∈ validateOdometerKm v) : e.field = "odometerKm" := by
  unfold validateOdometerKm at he
  split at he
  · simp at he
    rw [he]
  · split at he
    · simp at he
      rw [he]
    · split at he
      · simp at he
        rw [he]
      · simp at he

/-- Every `note`-block error is on the `note` field. -/
theorem validateNote_field (v : JsValue) (e : ValidationError)
    (he : e ∈ validateNote v) : e.field = "note" := by
  unfold validateNote at he
  split at he
  · split at he
    · simp at he
      rw [he]
    · split at he
      · simp at he
        rw [he]
      · simp at he
  · simp at he

/-- Every `items[idx].key` error has one of the two key reasons. -/
theorem itemKeyErrors_reason (idx : Nat) (key : JsValue) (e : ValidationError)
    (he : e ∈ itemKeyErrors idx key) :
    e.reason = "is required" ∨
      e.reason = "must be one of: TYRES, BRAKES, LIGHTS, OIL, COOLANT" := by
  unfold itemKeyErrors at he
  split at he
  · simp at he
    rw [he]
    exact Or.inl rfl
  · split at he
    · simp at he
      rw [he]
      exact Or.inr rfl
    · simp at he

/-- Every `items[idx].status` error has one of the two status reasons. -/
theorem itemStatusErrors_reason (idx : Nat) (status : JsValue)
    (e : ValidationError) (he : e ∈ itemStatusErrors idx status) :
    e.reason = "is required" ∨ e.reason = "must be one of: OK, FAIL" := by
  unfold itemStatusErrors at he
  split at he
  · simp at he
    rw [he]
    exact Or.inl rfl
  · split at he
    · simp at he
      rw [he]
      exact Or.inr rfl
    · simp at he

/-- Every error produced by the per-item loop has one of the three per-item
reasons. -/
theorem validateItemList_reason :
    ∀ (xs : List JsValue) (idx : Nat) (keys : List String)
      (r : List ValidationError × List String),
    validateItemList xs idx keys = Except.ok r →
    ∀ e ∈ r.1, e.reason = "is required" ∨
      e.reason = "must be one of: TYRES, BRAKES, LIGHTS, OIL, COOLANT" ∨
      e.reason = "must be one of: OK, FAIL" := by
  intro xs
  induction xs with
  | nil =>
    intro idx keys r h e he
    unfold validateItemList at h
    simp only [Except.ok.injEq] at h
    rw [← h] at he
    simp at he
  | cons item rest ih =>
    intro idx keys r h e he
    rw [validateItemList_cons_eq] at h
    cases hv : validateItem idx item with
    | error er => simp [hv] at h
    | ok ri =>
      simp only [hv] at h
      cases hr2 : validateItemList rest (idx + 1)
          (match ri.2 with | some k => insertKey keys k | none => keys) with
      | error er => simp [hr2] at h
      | ok rr =>
        simp only [hr2, Except.ok.injEq] at h
        rw [← h] at he
        rcases List.mem_append.mp he with hin | hin
        · -- e is one of this item's errors
          unfold validateItem at hv
          cases hk : item.getField "key" with
          | error er => simp [hk] at hv
          | ok kv =>
            simp only [hk] at hv
            cases hs : item.getField "status" with
            | error er => simp [hs] at hv
            | ok sv =>
              simp only [hs, Except.ok.injEq] at hv
              have h1 : ri.1 = itemKeyErrors idx kv ++ itemStatusErrors idx sv
                  := by rw [← hv]
              rw [h1] at hin
              rcases List.mem_append.mp hin with h2 | h2
              · rcases itemKeyErrors_reason idx kv e h2 with h3 | h3
                · exact Or.inl h3
                · exact Or.inr (Or.inl h3)
              · rcases itemStatusErrors_reason idx sv e h2 with h3 | h3
                · exact Or.inl h3
                · exact Or.inr (Or.inr h3)
        · exact ih (idx + 1) _ rr hr2 e hin

/-- Every missing-key error is on the `items` field. -/
theorem missingKeyErrors_field (keys : List String) (e : ValidationError)
    (he : e ∈ missingKeyErrors keys) : e.field = "items" := by
  unfold missingKeyErrors at he
  rw [List.mem_filterMap] at he
  obtain ⟨k, _, hf⟩ := he
  split at hf
  · cases hf
  · simp only [Option.some.injEq] at hf
    rw [← hf]

/-- Unfolding equation for `validateItems` on an array value. -/
theorem validateItems_arr_eq (xs : List JsValue) :
    validateItems (JsValue.arr xs) =
      match validateItemList xs 0 [] with
      | Except.error e => Except.error e
      | Except.ok loopR =>
        Except.ok
          ((if xs.length ≠ 5 then
              [⟨"items", "must contain exactly 5 items"⟩]
            else []) ++ loopR.1 ++
            (if xs.length = 5 ∧ loopR.2.length ≠ 5 then [duplicateKeysError]
             else []) ++ missingKeyErrors loopR.2) := rfl

/-- On any non-array value the `items` block reports a single `items`-field
error. -/
theorem validateItems_not_arr (v : JsValue)
    (h : ∀ xs, v ≠ JsValue.arr xs) :
    validateItems v = Except.ok [⟨"items", "is required"⟩] ∨
    validateItems v = Except.ok [⟨"items", "must be an array"⟩] := by
  cases v with
  | arr xs => exact absurd rfl (h xs)
  | null => exact Or.inl rfl
  | undefined => exact Or.inl rfl
  | obj fields => exact Or.inr rfl
  | bool b =>
    cases b with
    | false => exact Or.inl rfl
    | true => exact Or.inr rfl
  | num n =>
    cases hn : n != 0 with
    | false =>
      left
      simp [validateItems, JsValue.truthy, hn]
    | true =>
      right
      simp [validateItems, JsValue.truthy, hn]
  | str s =>
    cases hs : s != "" with
    | false =>
      left
      simp [validateItems, JsValue.truthy, hs]
    | true =>
      right
      simp [validateItems, JsValue.truthy, hs]

/-- Every error produced by the `items` block is either on the `items` field
or carries one of the three per-item reasons. -/
theorem validateItems_err_shape (v : JsValue) (errs : List ValidationError)
    (h : validateItems v = Except.ok errs) (e : ValidationError)
    (he : e ∈ errs) :
    e.field = "items" ∨ e.reason = "is required" ∨
      e.reason = "must be one of: TYRES, BRAKES, LIGHTS, OIL, COOLANT" ∨
      e.reason = "must be one of: OK, FAIL" := by
  by_cases harr : ∃ xs, v = JsValue.arr xs
  · obtain ⟨xs, rfl⟩ := harr
    rw [validateItems_arr_eq] at h
    cases hl : validateItemList xs 0 [] with
    | error er => simp [hl] at h
    | ok loopR =>
      simp only [hl, Except.ok.injEq] at h
      rw [← h] at he
      rcases List.mem_append.mp he with h1 | h1
      · rcases List.mem_append.mp h1 with h2 | h2
        · rcases List.mem_append.mp h2 with h3 | h3
          · revert h3
            split
            · intro h3
              simp at h3
              rw [h3]
              exact Or.inl rfl
            · intro h3
              simp at h3
          · exact Or.inr (validateItemList_reason xs 0 [] loopR hl e h3)
        · revert h2
          split
          · intro h2
            simp at h2
            rw [h2]
            exact Or.inl rfl
          · intro h2
            simp at h2
      · exact Or.inl (missingKeyErrors_field loopR.2 e h1)
  · have hcase := validateItems_not_arr v (fun xs hxs => harr ⟨xs, hxs⟩)
    rcases hcase with h2 | h2 <;>
      (rw [h2] at h
       simp only [Except.ok.injEq] at h
       rw [← h] at he
       simp at he
       rw [he]
       exact Or.inl rfl)

/-- C8: presence checks are based on JavaScript falsiness.  An empty-string
`vehicleId` — although present and a string — is reported as
`{vehicleId, is required}` and neither the string-type nor the
vehicle-existence check runs; an empty-string `items[i].key` is likewise
reported as required, skips the enumeration-membership check and is not
counted toward the seen-key set; an empty-string `items[i].status` is
reported as required and skips its enumeration-membership check. -/
theorem validator_falsy_presence :
    (∀ (vehicles : List Vehicle) (odo itemsV note : JsValue),
      (∀ xs, itemsV = JsValue.arr xs →
        ∀ x ∈ xs, x.isUndefinedOrNull = false) →
      ∃ errs, validateCheckRequest vehicles (JsValue.obj
          [("vehicleId", JsValue.str ""), ("odometerKm", odo),
           ("items", itemsV), ("note", note)]) = Except.ok errs
        ∧ (⟨"vehicleId", "is required"⟩ : ValidationError) ∈ errs
        ∧ (⟨"vehicleId", "must be a string"⟩ : ValidationError) ∉ errs
        ∧ (⟨"vehicleId", "vehicle does not exist"⟩ : ValidationError) ∉ errs)
    ∧ (∀ (idx : Nat) (item : JsValue),
      item.getField "key" = Except.ok (JsValue.str "") →
      ∃ r, validateItem idx item = Except.ok r
        ∧ (⟨itemKeyField idx, "is required"⟩ : ValidationError) ∈ r.1
        ∧ r.2 = none
        ∧ ∀ e ∈ r.1,
            e.reason ≠ "must be one of: TYRES, BRAKES, LIGHTS, OIL, COOLANT")
    ∧ (∀ (idx : Nat) (item : JsValue),
      item.getField "status" = Except.ok (JsValue.str "") →
      ∃ r, validateItem idx item = Except.ok r
        ∧ (⟨itemStatusField idx, "is required"⟩ : ValidationError) ∈ r.1
        ∧ ∀ e ∈ r.1, e.reason ≠ "must be one of: OK, FAIL") := by
  refine ⟨?_, ?_, ?_⟩
  · intro vehicles odo itemsV note hitems
    obtain ⟨itemErrs, hie⟩ := validateItems_ok itemsV hitems
    have hvid : validateVehicleId vehicles (JsValue.str "") =
        [⟨"vehicleId", "is required"⟩] := rfl
    have hcall : validateCheckRequest vehicles (JsValue.obj
        [("vehicleId", JsValue.str ""), ("odometerKm", odo),
         ("items", itemsV), ("note", note)]) =
        Except.ok (validateVehicleId vehicles (JsValue.str "") ++
          validateOdometerKm odo ++ itemErrs ++ validateNote note) := by
      simp only [validateCheckRequest, JsValue.getField, lookupField]
      simp only [↓reduceIte, String.reduceEq, hie]
    refine ⟨_, hcall, ?_, ?_, ?_⟩
    · rw [hvid]
      simp
    · intro hmem
      rw [hvid] at hmem
      rcases List.mem_append.mp hmem with h1 | h1
      · rcases List.mem_append.mp h1 with h2 | h2
        · rcases List.mem_append.mp h2 with h3 | h3
          · simp at h3
          · have := validateOdometerKm_field odo _ h3
            simp at this
        · rcases validateItems_err_shape itemsV itemErrs hie _ h2 with
            h3 | h3 | h3 | h3 <;> simp at h3
      · have := validateNote_field note _ h1
        simp at this
    · intro hmem
      rw [hvid] at hmem
      rcases List.mem_append.mp hmem with h1 | h1
      · rcases List.mem_append.mp h1 with h2 | h2
        · rcases List.mem_append.mp h2 with h3 | h3
          · simp at h3
          · have := validateOdometerKm_field odo _ h3
            simp at this
        · rcases validateItems_err_shape itemsV itemErrs hie _ h2 with
            h3 | h3 | h3 | h3 <;> simp at h3
      · have := validateNote_field note _ h1
        simp at this
  · intro idx item hk
    have hnn : item.isUndefinedOrNull = false := by
      cases item <;> simp [JsValue.getField] at hk <;> rfl
    obtain ⟨sv, hs⟩ := getField_ok_of_not_nullish item "status" hnn
    have hcall : validateItem idx item =
        Except.ok (itemKeyErrors idx (JsValue.str "") ++
          itemStatusErrors idx sv, addedKey (JsValue.str "")) := by
      unfold validateItem
      rw [hk, hs]
    refine ⟨_, hcall, ?_, rfl, ?_⟩
    · simp [itemKeyErrors, JsValue.truthy]
    · intro e he
      rcases List.mem_append.mp he with h1 | h1
      · rcases itemKeyErrors_reason idx (JsValue.str "") e h1 with h2 | h2
        · simp [h2]
        · exfalso
          revert h1
          simp [itemKeyErrors, JsValue.truthy]
          intro h3
          rw [h3] at h2
          simp at h2
      · rcases itemStatusErrors_reason idx sv e h1 with h2 | h2 <;> simp [h2]
  · intro idx item hst
    have hnn : item.isUndefinedOrNull = false := by
      cases item <;> simp [JsValue.getField] at hst <;> rfl
    obtain ⟨kv, hkv⟩ := getField_ok_of_not_nullish item "key" hnn
    have hcall : validateItem idx item =
        Except.ok (itemKeyErrors idx kv ++
          itemStatusErrors idx (JsValue.str ""), addedKey kv) := by
      unfold validateItem
      rw [hkv, hst]
    refine ⟨_, hcall, ?_, ?_⟩
    · simp [itemStatusErrors, JsValue.truthy]
    · intro e he
      rcases List.mem_append.mp he with h1 | h1
      · rcases itemKeyErrors_reason idx kv e h1 with h2 | h2 <;> simp [h2]
      · rcases itemStatusErrors_reason idx (JsValue.str "") e h1 with h2 | h2
        · simp [h2]
        · exfalso
          revert h1
          simp [itemStatusErrors, JsValue.truthy]
          intro h3
          rw [h3] at h2
          simp at h2

/-- C8 witness: the empty-string `vehicleId` payload with otherwise valid
fields reports exactly the required-field error for `vehicleId`. -/
theorem validator_falsy_presence_witness :
    ∃ errs, validateCheckRequest demoVehicles (JsValue.obj
        [("vehicleId", JsValue.str ""), ("odometerKm", JsValue.num 100),
         ("items", demoOkItemsJson), ("note", JsValue.undefined)]) =
        Except.ok errs
      ∧ (⟨"vehicleId", "is required"⟩ : ValidationError) ∈ errs
      ∧ (⟨"vehicleId", "must be a string"⟩ : ValidationError) ∉ errs
      ∧ (⟨"vehicleId", "vehicle does not exist"⟩ : ValidationError) ∉ errs :=
  validator_falsy_presence.1 demoVehicles (JsValue.num 100) demoOkItemsJson
    JsValue.undefined (by
      intro xs hxs x hx
      simp only [demoOkItemsJson, JsValue.arr.injEq] at hxs
      rw [← hxs] at hx
      simp only [List.mem_cons, List.not_mem_nil, or_false] at hx
      rcases hx with rfl | rfl | rfl | rfl | rfl <;> rfl)

end VehicleInspection
